import Mathlib

/-!
Verification of the multiplayer room state machine of a browser trivia game.

The source keeps one shared mutable `Room` document per multiplayer session in
a document store.  The operations below are shallow embeddings of the handler
functions of the source (`handleAnswerSelect`, `handleNextQuestion`,
`handleStartGame`, `handleJoinRoom`, `handleLeaveRoom`, `handleCreateRoom`).
A JS object used as a map (the `answers` field) is embedded as an association
list; the document-store partial update (`updateDoc`) is embedded by the
explicit payload type `AnswerPayload` together with `applyAnswerPayload`, so
that stale-cache interleavings can be expressed: the client computes a payload
from its cached snapshot and the store applies it to the current server state.

Fields of the room document that no transition reads (`roomCode`,
`gameSettings`, `createdAt`) are omitted from the embedding.
-/

namespace Trivia

/-- One entry of the `players` list: `{ uid, name, score }` in the source. -/
structure Player where
  uid : String
  name : String
  score : Nat
deriving DecidableEq

/-- One trivia question as stored in the room document: the prompt, the
correct answer, the distractors, and the precomputed shuffled display order
`answers = shuffleArray([correct_answer, ...incorrect_answers])`. -/
structure Question where
  question : String
  correctAnswer : String
  incorrectAnswers : List String
  answers : List String
deriving DecidableEq

/-- The `gameState` field: `'waiting' | 'playing' | 'finished'`. -/
inductive GameState where
  | waiting : GameState
  | playing : GameState
  | finished : GameState
deriving DecidableEq

/-- The shared room document. `answers` is the per-question map from player
uid to submitted answer, embedded as an association list. -/
structure Room where
  hostId : String
  players : List Player
  questions : List Question
  currentQuestionIndex : Nat
  answers : List (String × String)
  gameState : GameState
deriving DecidableEq

/-- JS map read `answers[userId]`: first entry with the given key, if any. -/
def lookupAnswer : List (String × String) → String → Option String
  | [], _ => none
  | (k, v) :: rest, u => if k = u then some v else lookupAnswer rest u

/-- JS map write `{ ...answers, [userId]: answer }` (and equally the
Firestore field-path update `answers.userId`): replace the entry in place if
the key is present, otherwise append it. -/
def setAnswer : List (String × String) → String → String → List (String × String)
  | [], u, a => [(u, a)]
  | (k, v) :: rest, u, a => if k = u then (u, a) :: rest else (k, v) :: setAnswer rest u a

/-- `players.find(p => p.uid === userId)` of the source. -/
def findPlayer : List Player → String → Option Player
  | [], _ => none
  | p :: rest, u => if p.uid = u then some p else findPlayer rest u

/-- Score of a player as read from the roster (0 when absent, as the UI's
`myPlayer` fallback never scores an absent player). -/
def scoreOf (room : Room) (u : String) : Nat :=
  match findPlayer room.players u with
  | some p => p.score
  | none => 0

/-- `players.map(p => (p.uid === userId ? { ...p, score: p.score + 1 } : p))`
from `handleAnswerSelect`. -/
def incScore (players : List Player) (u : String) : List Player :=
  players.map fun p => if p.uid = u then { p with score := p.score + 1 } else p

/-- `questions[currentQuestionIndex].correctAnswer` (when in bounds). -/
def currentCorrect (room : Room) : Option String :=
  (room.questions.get? room.currentQuestionIndex).map Question.correctAnswer

/-- `answer === currentQuestion.correctAnswer` from `handleAnswerSelect`. -/
def isCorrectAnswer (room : Room) (answer : String) : Bool :=
  match currentCorrect room with
  | some c => decide (answer = c)
  | none => false

/-- The partial update that `handleAnswerSelect` sends with `updateDoc`:
the answer entry for the submitting player, plus — only when the answer is
correct — a full replacement of the `players` array. -/
structure AnswerPayload where
  uid : String
  answer : String
  players : Option (List Player)
deriving DecidableEq

/-- Client side of `handleAnswerSelect`, computed from the client's cached
snapshot `cache` of the room: the `if (isAnswered) return` guard (the UI sets
`isAnswered` from `answers[userId] !== undefined` of the snapshot), the
correctness check against the current question, and the `updateDoc` payload
(`{ players: updatedPlayers, answers.userId: answer }` when correct,
`{ answers.userId: answer }` otherwise). -/
def clientAnswerPayload (cache : Room) (userId answer : String) : Option AnswerPayload :=
  if (lookupAnswer cache.answers userId).isSome then none
  else if isCorrectAnswer cache answer then
    some { uid := userId, answer := answer, players := some (incScore cache.players userId) }
  else
    some { uid := userId, answer := answer, players := none }

/-- Store side of `updateDoc` for an answer payload: merge the answer entry
into the server's `answers` map field by field path, and replace the
`players` array wholesale when the payload carries one. -/
def applyAnswerPayload (server : Room) (pay : AnswerPayload) : Room :=
  { server with
    answers := setAnswer server.answers pay.uid pay.answer,
    players := pay.players.getD server.players }

/-- `handleAnswerSelect` in the sequential case, where the client's cached
snapshot agrees with the server state: compute the payload from the room and
apply it to the same room; the guard case leaves the room untouched. -/
def handleAnswerSelect (room : Room) (userId answer : String) : Room :=
  match clientAnswerPayload room userId answer with
  | none => room
  | some pay => applyAnswerPayload room pay

/-- `handleNextQuestion` (multiplayer branch): only the host has an effect;
`nextIndex = currentQuestionIndex + 1`; if the game is not over, advance the
index and clear `answers`, otherwise set `gameState` to finished. -/
def handleNextQuestion (room : Room) (userId : String) : Room :=
  if room.hostId ≠ userId then room
  else if room.currentQuestionIndex + 1 < room.questions.length then
    { room with currentQuestionIndex := room.currentQuestionIndex + 1, answers := [] }
  else
    { room with gameState := GameState.finished }

/-- `handleStartGame`: the source issues
`updateDoc(roomDocRef, { gameState: 'playing' })` with no check of the
requester or of the current state (the host-only and lobby-only gating live
in the UI layer). -/
def handleStartGame (room : Room) : Room :=
  { room with gameState := GameState.playing }

/-- Result of `handleJoinRoom` on an existing room. -/
inductive JoinOutcome where
  | alreadyStarted : JoinOutcome
  | joined : Room → JoinOutcome
deriving DecidableEq

/-- `handleJoinRoom` on an existing room document: rejected with the message
that the game has already started when `gameState === 'playing'`; otherwise
the player is appended via `arrayUnion` unless some roster entry already has
this uid (idempotent re-join). -/
def handleJoinRoom (room : Room) (userId pName : String) : JoinOutcome :=
  if room.gameState = GameState.playing then JoinOutcome.alreadyStarted
  else if room.players.any (fun p => decide (p.uid = userId)) then JoinOutcome.joined room
  else JoinOutcome.joined
    { room with players := room.players ++ [{ uid := userId, name := pName, score := 0 }] }

/-- `handleLeaveRoom`: filter the leaver out of `players`; delete the room
document (result `none`) when no player remains; otherwise reassign
`hostId` to the first remaining player when the leaver was the host. -/
def handleLeaveRoom (room : Room) (userId : String) : Option Room :=
  let updatedPlayers := room.players.filter fun p => decide (p.uid ≠ userId)
  if updatedPlayers.length = 0 then none
  else
    let newHostId :=
      if room.hostId = userId ∧ 0 < updatedPlayers.length then
        ((updatedPlayers.head?).map Player.uid).getD room.hostId
      else room.hostId
    some { room with players := updatedPlayers, hostId := newHostId }

/-- `handleCreateRoom` of the first app version: fails (no room document is
written) when the provider returned fewer questions than
`gameSettings.amount`; otherwise persists a fresh room in state waiting with
the creator as sole player and host. The single-player setup of the same
version applies the identical count check before starting a session. -/
def handleCreateRoom (questions : List Question) (amount : Nat)
    (userId playerName : String) : Option Room :=
  if questions.length < amount then none
  else some
    { hostId := userId
      players := [{ uid := userId, name := playerName, score := 0 }]
      questions := questions
      currentQuestionIndex := 0
      answers := []
      gameState := GameState.waiting }

/-- `handleCreateRoom` of the other two app versions: the only check is
`questions.length === 0`; a non-empty but short question list is accepted
and the room starts with fewer questions than requested. -/
def handleCreateRoomB (questions : List Question) (amount : Nat)
    (userId playerName : String) : Option Room :=
  if questions.length = 0 then none
  else some
    { hostId := userId
      players := [{ uid := userId, name := playerName, score := 0 }]
      questions := questions
      currentQuestionIndex := 0
      answers := []
      gameState := GameState.waiting }

/-- The invariant claimed of reachable rooms: every key of the `answers` map
is the uid of a current roster entry. -/
def answersKeysSubset (room : Room) : Prop :=
  ∀ k, (lookupAnswer room.answers k).isSome → k ∈ room.players.map Player.uid

/-! ### Concrete fixtures used by witnesses and counterexamples -/

/-- A one-question fixture whose correct answer is the string x. -/
def q0 : Question :=
  { question := "q", correctAnswer := "x", incorrectAnswers := ["y"], answers := ["x", "y"] }

/-- A two-player room on question `q0`, mid-game, nobody answered yet. -/
def raceStart : Room :=
  { hostId := "A"
    players := [{ uid := "A", name := "Alice", score := 0 },
                { uid := "B", name := "Bob", score := 0 }]
    questions := [q0]
    currentQuestionIndex := 0
    answers := []
    gameState := GameState.playing }

/-- The payload player A's client computes from the snapshot `raceStart`
after answering correctly. -/
def racePayloadA : AnswerPayload :=
  { uid := "A", answer := "x"
    players := some [{ uid := "A", name := "Alice", score := 1 },
                     { uid := "B", name := "Bob", score := 0 }] }

/-- The payload player B's client computes from the same stale snapshot
`raceStart` after answering correctly. -/
def racePayloadB : AnswerPayload :=
  { uid := "B", answer := "x"
    players := some [{ uid := "A", name := "Alice", score := 0 },
                     { uid := "B", name := "Bob", score := 1 }] }

/-- Server state after the store applies A's payload and then B's. -/
def raceFinal : Room :=
  applyAnswerPayload (applyAnswerPayload raceStart racePayloadA) racePayloadB

/-- A single-player room whose game has finished. -/
def finishedRoom : Room :=
  { hostId := "H"
    players := [{ uid := "H", name := "Host", score := 0 }]
    questions := [q0]
    currentQuestionIndex := 0
    answers := []
    gameState := GameState.finished }

/-- A six-element question list, used against a requested amount of ten. -/
def sixQuestions : List Question := [q0, q0, q0, q0, q0, q0]

/-- The room `handleCreateRoom [q0] 1 H Host` persists. -/
def roomW : Room :=
  { hostId := "H"
    players := [{ uid := "H", name := "Host", score := 0 }]
    questions := [q0]
    currentQuestionIndex := 0
    answers := []
    gameState := GameState.waiting }

/-- `roomW` after player P joins. -/
def roomWP : Room :=
  { roomW with players := roomW.players ++ [{ uid := "P", name := "Pat", score := 0 }] }

/-- `roomWP` after the host starts the game. -/
def roomPlaying : Room :=
  { roomWP with gameState := GameState.playing }

/-- `roomPlaying` after P answers the current question correctly. -/
def roomAnswered : Room :=
  { roomPlaying with
    players := [{ uid := "H", name := "Host", score := 0 },
                { uid := "P", name := "Pat", score := 1 }]
    answers := [("P", "x")] }

/-- `roomAnswered` after P leaves: P's answer entry stays behind. -/
def roomStale : Room :=
  { roomAnswered with players := [{ uid := "H", name := "Host", score := 0 }] }

/-! ### Helper lemmas -/

theorem lookupAnswer_setAnswer_self (ans : List (String × String)) (u a : String) :
    lookupAnswer (setAnswer ans u a) u = some a := by
  induction ans with
  | nil => simp [setAnswer, lookupAnswer]
  | cons kv rest ih =>
    obtain ⟨k, v⟩ := kv
    by_cases h : k = u <;> simp [setAnswer, lookupAnswer, h, ih]

theorem isSome_lookupAnswer_setAnswer (ans : List (String × String)) (u a k : String)
    (h : (lookupAnswer (setAnswer ans u a) k).isSome) :
    k = u ∨ (lookupAnswer ans k).isSome := by
  induction ans with
  | nil =>
    simp only [setAnswer, lookupAnswer] at h
    by_cases hk : u = k
    · exact Or.inl hk.symm
    · simp [hk] at h
  | cons kv rest ih =>
    obtain ⟨k', v⟩ := kv
    by_cases hku : k' = u
    · subst hku
      simp only [setAnswer, if_pos rfl, lookupAnswer] at h
      by_cases hk : k' = k
      · exact Or.inl hk.symm
      · simp only [lookupAnswer, if_neg hk]
        simp [hk] at h
        exact Or.inr h
    · simp only [setAnswer, if_neg hku, lookupAnswer] at h
      by_cases hk : k' = k
      · simp [lookupAnswer, hk]
      · simp only [if_neg hk] at h
        simp only [lookupAnswer, if_neg hk]
        exact ih h

theorem findPlayer_incScore (ps : List Player) (u : String) :
    findPlayer (incScore ps u) u
      = (findPlayer ps u).map fun p => { p with score := p.score + 1 } := by
  induction ps with
  | nil => simp [incScore, findPlayer]
  | cons p rest ih =>
    by_cases h : p.uid = u <;> simp [incScore, findPlayer, h] <;>
      simpa [incScore] using ih

theorem map_uid_incScore (ps : List Player) (u : String) :
    (incScore ps u).map Player.uid = ps.map Player.uid := by
  induction ps with
  | nil => simp [incScore]
  | cons p rest ih =>
    by_cases h : p.uid = u <;> simp [incScore, h] <;> simpa [incScore] using ih

theorem filter_incScore (ps : List Player) (u : String) :
    (incScore ps u).filter (fun p => decide (p.uid ≠ u))
      = ps.filter (fun p => decide (p.uid ≠ u)) := by
  induction ps with
  | nil => simp [incScore]
  | cons p rest ih =>
    by_cases h : p.uid = u <;> simp [incScore, h] <;> simpa [incScore] using ih

theorem isSome_findPlayer_of_mem (ps : List Player) (u : String)
    (h : u ∈ ps.map Player.uid) : (findPlayer ps u).isSome := by
  induction ps with
  | nil => simp at h
  | cons p rest ih =>
    by_cases hp : p.uid = u
    · simp [findPlayer, hp]
    · simp [findPlayer, hp]
      simp [hp] at h
      rcases h with h | h
      · exact absurd h.symm hp
      · exact ih (by simpa using h)

theorem handleAnswerSelect_eq (room : Room) (u a : String) :
    handleAnswerSelect room u a = room
    ∨ handleAnswerSelect room u a
        = { room with answers := setAnswer room.answers u a,
                      players := incScore room.players u }
    ∨ handleAnswerSelect room u a
        = { room with answers := setAnswer room.answers u a } := by
  unfold handleAnswerSelect clientAnswerPayload applyAnswerPayload
  by_cases h1 : (lookupAnswer room.answers u).isSome
  · simp [h1]
  · by_cases h2 : isCorrectAnswer room a <;> simp [h1, h2]

/-! ### Claim theorems -/

/-- C1: in a playing room, a first answer by a roster player records
`answers[p] = a`, increments that player's score by exactly 1 iff `a` is the
current question's correct answer (score unchanged when incorrect), and both
effects travel in the single update payload the client issues. -/
theorem submitAnswer_records_and_scores (room : Room) (p a : String)
    (hplaying : room.gameState = GameState.playing)
    (hmem : p ∈ room.players.map Player.uid)
    (hnew : lookupAnswer room.answers p = none)
    (q : Question) (hq : room.questions.get? room.currentQuestionIndex = some q) :
    lookupAnswer (handleAnswerSelect room p a).answers p = some a
    ∧ (scoreOf (handleAnswerSelect room p a) p = scoreOf room p + 1 ↔ a = q.correctAnswer)
    ∧ (a ≠ q.correctAnswer → scoreOf (handleAnswerSelect room p a) p = scoreOf room p)
    ∧ ∃ pay, clientAnswerPayload room p a = some pay
        ∧ handleAnswerSelect room p a = applyAnswerPayload room pay
        ∧ pay.uid = p ∧ pay.answer = a
        ∧ (a = q.correctAnswer → pay.players.isSome) := by
  have hns : (lookupAnswer room.answers p).isSome = false := by simp [hnew]
  have hq2 : room.questions[room.currentQuestionIndex]? = some q := by simpa using hq
  have hic : isCorrectAnswer room a = decide (a = q.correctAnswer) := by
    simp [isCorrectAnswer, currentCorrect, hq2]
  obtain ⟨pl, hpl⟩ := Option.isSome_iff_exists.mp (isSome_findPlayer_of_mem _ _ hmem)
  by_cases hca : a = q.correctAnswer
  · have hict : isCorrectAnswer room a = true := by rw [hic]; simp [hca]
    have hres : handleAnswerSelect room p a
        = { room with answers := setAnswer room.answers p a,
                      players := incScore room.players p } := by
      unfold handleAnswerSelect clientAnswerPayload applyAnswerPayload
      simp [hns, hict]
    refine ⟨?_, ?_, ?_, ?_⟩
    · rw [hres]; exact lookupAnswer_setAnswer_self _ _ _
    · rw [hres]
      simp only [scoreOf, findPlayer_incScore, hpl, Option.map_some]
      simp [hca]
    · intro h; exact absurd hca h
    · refine ⟨{ uid := p, answer := a, players := some (incScore room.players p) },
        ?_, ?_, rfl, rfl, fun _ => rfl⟩
      · unfold clientAnswerPayload; simp [hns, hict]
      · rw [hres]; rfl
  · have hicf : isCorrectAnswer room a = false := by rw [hic]; simp [hca]
    have hres : handleAnswerSelect room p a
        = { room with answers := setAnswer room.answers p a } := by
      unfold handleAnswerSelect clientAnswerPayload applyAnswerPayload
      simp [hns, hicf]
    refine ⟨?_, ?_, ?_, ?_⟩
    · rw [hres]; exact lookupAnswer_setAnswer_self _ _ _
    · rw [hres]
      simp only [scoreOf, hpl]
      simp [hca]
    · intro _; rw [hres]; rfl
    · refine ⟨{ uid := p, answer := a, players := none },
        ?_, ?_, rfl, rfl, fun h => absurd h hca⟩
      · unfold clientAnswerPayload; simp [hns, hicf]
      · rw [hres]; rfl

/-- Witness for C1 at a concrete playing room: player A answers x, the
correct answer of the current question, for the first time. -/
theorem submitAnswer_records_and_scores_witness :
    (raceStart.gameState = GameState.playing
      ∧ "A" ∈ raceStart.players.map Player.uid
      ∧ lookupAnswer raceStart.answers "A" = none
      ∧ raceStart.questions.get? raceStart.currentQuestionIndex = some q0)
    ∧ (lookupAnswer (handleAnswerSelect raceStart "A" "x").answers "A" = some "x"
      ∧ (scoreOf (handleAnswerSelect raceStart "A" "x") "A" = scoreOf raceStart "A" + 1
          ↔ "x" = q0.correctAnswer)
      ∧ ("x" ≠ q0.correctAnswer →
          scoreOf (handleAnswerSelect raceStart "A" "x") "A" = scoreOf raceStart "A")
      ∧ ∃ pay, clientAnswerPayload raceStart "A" "x" = some pay
          ∧ handleAnswerSelect raceStart "A" "x" = applyAnswerPayload raceStart pay
          ∧ pay.uid = "A" ∧ pay.answer = "x"
          ∧ ("x" = q0.correctAnswer → pay.players.isSome)) :=
  ⟨⟨by decide, by decide, by decide, by decide⟩,
    submitAnswer_records_and_scores raceStart "A" "x" (by decide) (by decide) (by decide)
      q0 (by decide)⟩

/-- C2: a player who already has an entry in `answers` for the current
question is stopped by the answered guard, so a second submission changes
nothing: neither the recorded answer nor the score. -/
theorem submitAnswer_second_call_noop (room : Room) (p a : String)
    (h : (lookupAnswer room.answers p).isSome) :
    handleAnswerSelect room p a = room := by
  unfold handleAnswerSelect clientAnswerPayload
  simp [h]

/-- Witness for C2: P already answered in `roomAnswered`; submitting y is a
no-op. -/
theorem submitAnswer_second_call_noop_witness :
    (lookupAnswer roomAnswered.answers "P").isSome = true
    ∧ handleAnswerSelect roomAnswered "P" "y" = roomAnswered :=
  ⟨by decide, submitAnswer_second_call_noop roomAnswered "P" "y" (by decide)⟩

/-- C4: advancing by the host increments the index and clears `answers` when
a further question exists, and otherwise (index at the last question) only
sets `gameState` to finished, leaving the index where it is. -/
theorem advanceQuestion_spec (room : Room) (u : String) (hhost : room.hostId = u) :
    (room.currentQuestionIndex + 1 < room.questions.length →
      handleNextQuestion room u
        = { room with currentQuestionIndex := room.currentQuestionIndex + 1, answers := [] })
    ∧ (room.currentQuestionIndex + 1 = room.questions.length →
      handleNextQuestion room u = { room with gameState := GameState.finished }) := by
  constructor <;> intro h
  · simp [handleNextQuestion, hhost, h]
  · simp [handleNextQuestion, hhost, h]

/-- Witness for C4: the host advancing `roomPlaying` (a 2-player room on its
single question) finishes the game without moving the index. -/
theorem advanceQuestion_spec_witness :
    roomPlaying.hostId = "H"
    ∧ ((roomPlaying.currentQuestionIndex + 1 < roomPlaying.questions.length →
        handleNextQuestion roomPlaying "H"
          = { roomPlaying with
              currentQuestionIndex := roomPlaying.currentQuestionIndex + 1, answers := [] })
      ∧ (roomPlaying.currentQuestionIndex + 1 = roomPlaying.questions.length →
        handleNextQuestion roomPlaying "H" = { roomPlaying with gameState := GameState.finished })) :=
  ⟨by decide, advanceQuestion_spec roomPlaying "H" (by decide)⟩

/-- C3: the score update is a read-modify-write of the whole `players` array
computed from the client's cached snapshot, not an atomic increment. At the
concrete race below, both players answer the single question correctly from
the same stale snapshot; after the store applies both payloads in order, both
answers are recorded but Alice's increment is lost (her score is 0). -/
theorem concurrent_correct_answers_lose_increment :
    isCorrectAnswer raceStart "x" = true
    ∧ clientAnswerPayload raceStart "A" "x" = some racePayloadA
    ∧ clientAnswerPayload raceStart "B" "x" = some racePayloadB
    ∧ lookupAnswer raceFinal.answers "A" = some "x"
    ∧ lookupAnswer raceFinal.answers "B" = some "x"
    ∧ scoreOf raceFinal "A" = 0
    ∧ scoreOf raceFinal "B" = 1 := by decide

/-- C5 counterexample: joining the finished room succeeds and appends the
joiner, although its gameState is not waiting; the only rejection the source
implements is against gameState playing. -/
theorem joinRoom_finished_room_joins :
    finishedRoom.gameState ≠ GameState.waiting
    ∧ handleJoinRoom finishedRoom "P" "Pat"
        = JoinOutcome.joined
            { finishedRoom with
              players := finishedRoom.players ++ [{ uid := "P", name := "Pat", score := 0 }] } := by
  decide

/-- C5 amended: `handleJoinRoom` rejects exactly the rooms whose gameState is
playing; every other existing room (waiting or finished) is joined. -/
theorem joinRoom_rejects_only_playing (room : Room) (u n : String) :
    (room.gameState = GameState.playing → handleJoinRoom room u n = JoinOutcome.alreadyStarted)
    ∧ (room.gameState ≠ GameState.playing →
        ∃ r', handleJoinRoom room u n = JoinOutcome.joined r') := by
  constructor
  · intro h; simp [handleJoinRoom, h]
  · intro h
    by_cases hm : room.players.any (fun p => decide (p.uid = u))
    · exact ⟨room, by simp [handleJoinRoom, h, hm]⟩
    · exact ⟨{ room with players := room.players ++ [{ uid := u, name := n, score := 0 }] },
        by simp [handleJoinRoom, h, hm]⟩

/-- Witness for C5 amended at the playing room `raceStart` (rejected) — the
finished-room half is witnessed by the counterexample room. -/
theorem joinRoom_rejects_only_playing_witness :
    (raceStart.gameState = GameState.playing →
      handleJoinRoom raceStart "P" "Pat" = JoinOutcome.alreadyStarted)
    ∧ (raceStart.gameState ≠ GameState.playing →
      ∃ r', handleJoinRoom raceStart "P" "Pat" = JoinOutcome.joined r') :=
  joinRoom_rejects_only_playing raceStart "P" "Pat"

/-- C6: removing the last remaining player deletes the room; the host leaving
with players remaining hands hostId to the first remaining player (never the
departed uid); a non-host leaving keeps hostId unchanged. -/
theorem leaveRoom_spec (room : Room) (u : String) :
    (∀ pl, room.players = [pl] → pl.uid = u → handleLeaveRoom room u = none)
    ∧ (∀ q rest, room.hostId = u →
        room.players.filter (fun p => decide (p.uid ≠ u)) = q :: rest →
        handleLeaveRoom room u = some { room with players := q :: rest, hostId := q.uid }
        ∧ q.uid ≠ u)
    ∧ (room.hostId ≠ u → ∀ r', handleLeaveRoom room u = some r' →
        r'.hostId = room.hostId) := by
  refine ⟨?_, ?_, ?_⟩
  · intro pl hpl hu
    simp [handleLeaveRoom, hpl, hu]
  · intro q rest hhost hfilter
    have hqmem : q ∈ room.players.filter (fun p => decide (p.uid ≠ u)) := by
      rw [hfilter]; exact List.mem_cons_self q rest
    have hqne : q.uid ≠ u := of_decide_eq_true (List.mem_filter.mp hqmem).2
    refine ⟨?_, hqne⟩
    unfold handleLeaveRoom
    rw [hfilter]
    simp [hhost]
  · intro hne r' h
    simp [handleLeaveRoom, hne] at h
    rw [← h.2]

/-- Witness for C6: in `roomAnswered` the non-host P leaves (hostId stays H),
and in `finishedRoom` the sole player H leaves (room deleted). The witness
instantiates the theorem at `roomAnswered` with leaver P. -/
theorem leaveRoom_spec_witness :
    ((∀ pl, roomAnswered.players = [pl] → pl.uid = "P" → handleLeaveRoom roomAnswered "P" = none)
      ∧ (∀ q rest, roomAnswered.hostId = "P" →
          roomAnswered.players.filter (fun p => decide (p.uid ≠ "P")) = q :: rest →
          handleLeaveRoom roomAnswered "P"
            = some { roomAnswered with players := q :: rest, hostId := q.uid }
          ∧ q.uid ≠ "P")
      ∧ (roomAnswered.hostId ≠ "P" → ∀ r', handleLeaveRoom roomAnswered "P" = some r' →
          r'.hostId = roomAnswered.hostId))
    ∧ handleLeaveRoom roomAnswered "P" = some roomStale :=
  ⟨leaveRoom_spec roomAnswered "P", by decide⟩

/-- C7 counterexample: the second and third app versions create the room even
though the provider returned only six of the ten requested questions — the
shortage is not reported there. -/
theorem createRoomB_accepts_shortage :
    sixQuestions.length < 10
    ∧ handleCreateRoomB sixQuestions 10 "H" "Host"
        = some
          { hostId := "H"
            players := [{ uid := "H", name := "Host", score := 0 }]
            questions := sixQuestions
            currentQuestionIndex := 0
            answers := []
            gameState := GameState.waiting } := by decide

/-- C7 amended: the first app version rejects any shortage (strictly fewer
questions than requested means no room is written); the other two versions
reject only a fetch of zero questions and otherwise create the room with the
short list. -/
theorem createRoom_shortage_spec (qs : List Question) (amount : Nat) (u n : String) :
    (qs.length < amount → handleCreateRoom qs amount u n = none)
    ∧ (qs.length = 0 → handleCreateRoomB qs amount u n = none)
    ∧ (qs.length ≠ 0 →
        ∃ r, handleCreateRoomB qs amount u n = some r
          ∧ r.questions = qs ∧ r.gameState = GameState.waiting) := by
  refine ⟨?_, ?_, ?_⟩
  · intro h; simp [handleCreateRoom, h]
  · intro h; simp [handleCreateRoomB, h]
  · intro h
    refine ⟨{ hostId := u
              players := [{ uid := u, name := n, score := 0 }]
              questions := qs
              currentQuestionIndex := 0
              answers := []
              gameState := GameState.waiting }, ?_, rfl, rfl⟩
    simp [handleCreateRoomB, h]

/-- Witness for C7 amended at the six-question fixture with ten requested. -/
theorem createRoom_shortage_spec_witness :
    ((sixQuestions.length < 10 → handleCreateRoom sixQuestions 10 "H" "Host" = none)
      ∧ (sixQuestions.length = 0 → handleCreateRoomB sixQuestions 10 "H" "Host" = none)
      ∧ (sixQuestions.length ≠ 0 →
          ∃ r, handleCreateRoomB sixQuestions 10 "H" "Host" = some r
            ∧ r.questions = sixQuestions ∧ r.gameState = GameState.waiting))
    ∧ handleCreateRoom sixQuestions 10 "H" "Host" = none :=
  ⟨createRoom_shortage_spec sixQuestions 10 "H" "Host", by decide⟩

/-- C8 counterexample: `handleStartGame` writes gameState playing with no
guard, so the finished room transitions out of finished. -/
theorem startGame_leaves_finished :
    finishedRoom.gameState = GameState.finished
    ∧ (handleStartGame finishedRoom).gameState = GameState.playing := by decide

/-- C8 amended: a finished room stays finished under submitAnswer,
advanceQuestion, joinRoom and leaveRoom; but startGame sets gameState to
playing unconditionally (the host-and-waiting gating lives only in the UI),
so finished is not terminal against it. -/
theorem finished_terminal_except_startGame (room : Room) (u a n : String)
    (h : room.gameState = GameState.finished) :
    (handleAnswerSelect room u a).gameState = GameState.finished
    ∧ (handleNextQuestion room u).gameState = GameState.finished
    ∧ (∀ r', handleJoinRoom room u n = JoinOutcome.joined r' →
        r'.gameState = GameState.finished)
    ∧ (∀ r', handleLeaveRoom room u = some r' → r'.gameState = GameState.finished)
    ∧ (handleStartGame room).gameState = GameState.playing := by
  refine ⟨?_, ?_, ?_, ?_, rfl⟩
  · rcases handleAnswerSelect_eq room u a with he | he | he <;> rw [he] <;> exact h
  · unfold handleNextQuestion
    by_cases h1 : room.hostId ≠ u
    · simp [h1]; exact h
    · by_cases h2 : room.currentQuestionIndex + 1 < room.questions.length
      · simp [h1, h2]; exact h
      · simp [h1, h2]
  · intro r' hr
    unfold handleJoinRoom at hr
    have hp : ¬ room.gameState = GameState.playing := by rw [h]; intro hc; cases hc
    by_cases hm : room.players.any (fun p => decide (p.uid = u))
    · simp [hp, hm] at hr; rw [← hr]; exact h
    · simp [hp, hm] at hr; rw [← hr]; exact h
  · intro r' hr
    simp [handleLeaveRoom] at hr
    rw [← hr.2]; exact h

/-- Witness for C8 amended at the concrete finished room. -/
theorem finished_terminal_except_startGame_witness :
    finishedRoom.gameState = GameState.finished
    ∧ ((handleAnswerSelect finishedRoom "H" "x").gameState = GameState.finished
      ∧ (handleNextQuestion finishedRoom "H").gameState = GameState.finished
      ∧ (∀ r', handleJoinRoom finishedRoom "H" "Host" = JoinOutcome.joined r' →
          r'.gameState = GameState.finished)
      ∧ (∀ r', handleLeaveRoom finishedRoom "H" = some r' →
          r'.gameState = GameState.finished)
      ∧ (handleStartGame finishedRoom).gameState = GameState.playing) :=
  ⟨by decide, finished_terminal_except_startGame finishedRoom "H" "x" "Host" (by decide)⟩

/-- C9 counterexample: a reachable trace — create, P joins, host starts, P
answers, P leaves — ends in a room whose `answers` still holds P's entry
although P is no longer on the roster, breaking the keys-subset invariant. -/
theorem stale_answer_after_leave :
    handleCreateRoom [q0] 1 "H" "Host" = some roomW
    ∧ handleJoinRoom roomW "P" "Pat" = JoinOutcome.joined roomWP
    ∧ handleStartGame roomWP = roomPlaying
    ∧ handleAnswerSelect roomPlaying "P" "x" = roomAnswered
    ∧ handleLeaveRoom roomAnswered "P" = some roomStale
    ∧ (lookupAnswer roomStale.answers "P").isSome = true
    ∧ "P" ∉ roomStale.players.map Player.uid := by decide

/-- C9 amended: the keys-subset invariant is preserved by submitAnswer (when
the submitter is on the roster), advanceQuestion, joinRoom and startGame;
leaveRoom is the one operation that can break it, by leaving the departed
player's stale answer entry in place until the next question clears
`answers`. -/
theorem answers_subset_preserved_except_leave (room : Room)
    (hinv : answersKeysSubset room) :
    (∀ u a, u ∈ room.players.map Player.uid →
      answersKeysSubset (handleAnswerSelect room u a))
    ∧ (∀ u, answersKeysSubset (handleNextQuestion room u))
    ∧ (∀ u n r', handleJoinRoom room u n = JoinOutcome.joined r' → answersKeysSubset r')
    ∧ answersKeysSubset (handleStartGame room) := by
  refine ⟨?_, ?_, ?_, ?_⟩
  · intro u a hu
    rcases handleAnswerSelect_eq room u a with he | he | he <;> rw [he]
    · exact hinv
    · intro k hk
      rcases isSome_lookupAnswer_setAnswer _ _ _ _ hk with rfl | hk2
      · simpa [map_uid_incScore] using hu
      · simpa [map_uid_incScore] using hinv k hk2
    · intro k hk
      rcases isSome_lookupAnswer_setAnswer _ _ _ _ hk with rfl | hk2
      · exact hu
      · exact hinv k hk2
  · intro u
    unfold handleNextQuestion
    split
    · exact hinv
    · split
      · intro k hk
        simp [lookupAnswer] at hk
      · exact hinv
  · intro u n r' h
    unfold handleJoinRoom at h
    split at h
    · cases h
    · split at h
      · injection h with h2
        rw [← h2]; exact hinv
      · injection h with h2
        rw [← h2]
        intro k hk
        have := hinv k hk
        simp only [List.map_append]
        exact List.mem_append_left _ this
  · intro k hk
    exact hinv k hk

/-- Witness for C9 amended at `roomPlaying`, whose empty `answers` map
trivially satisfies the invariant. -/
theorem answers_subset_preserved_except_leave_witness :
    answersKeysSubset roomPlaying
    ∧ ((∀ u a, u ∈ roomPlaying.players.map Player.uid →
        answersKeysSubset (handleAnswerSelect roomPlaying u a))
      ∧ (∀ u, answersKeysSubset (handleNextQuestion roomPlaying u))
      ∧ (∀ u n r', handleJoinRoom roomPlaying u n = JoinOutcome.joined r' →
          answersKeysSubset r')
      ∧ answersKeysSubset (handleStartGame roomPlaying)) :=
  have hinv : answersKeysSubset roomPlaying := by
    intro k hk; simp [roomPlaying, roomWP, roomW, lookupAnswer] at hk
  ⟨hinv, answers_subset_preserved_except_leave roomPlaying hinv⟩

/-- C10: submitAnswer never touches gameState, hostId, the question pointer,
the question list (hence each precomputed shuffled answer order), the roster
size, or any other player's roster entry; and an incorrect first answer
changes nothing but the `answers` entry of the submitter. -/
theorem submitAnswer_frame (room : Room) (u a : String)
    (hplaying : room.gameState = GameState.playing) :
    (handleAnswerSelect room u a).gameState = room.gameState
    ∧ (handleAnswerSelect room u a).hostId = room.hostId
    ∧ (handleAnswerSelect room u a).currentQuestionIndex = room.currentQuestionIndex
    ∧ (handleAnswerSelect room u a).questions = room.questions
    ∧ (handleAnswerSelect room u a).players.length = room.players.length
    ∧ (handleAnswerSelect room u a).players.filter (fun p => decide (p.uid ≠ u))
        = room.players.filter (fun p => decide (p.uid ≠ u))
    ∧ (∀ q, room.questions.get? room.currentQuestionIndex = some q →
        a ≠ q.correctAnswer → lookupAnswer room.answers u = none →
        (handleAnswerSelect room u a).players = room.players
        ∧ (handleAnswerSelect room u a).answers = setAnswer room.answers u a) := by
  refine ⟨?_, ?_, ?_, ?_, ?_, ?_, ?_⟩
  · rcases handleAnswerSelect_eq room u a with he | he | he <;> rw [he]
  · rcases handleAnswerSelect_eq room u a with he | he | he <;> rw [he]
  · rcases handleAnswerSelect_eq room u a with he | he | he <;> rw [he]
  · rcases handleAnswerSelect_eq room u a with he | he | he <;> rw [he]
  · rcases handleAnswerSelect_eq room u a with he | he | he <;> rw [he] <;> simp [incScore]
  · rcases handleAnswerSelect_eq room u a with he | he | he <;> rw [he]
    exact filter_incScore room.players u
  · intro q hq hne hnew
    have hns : (lookupAnswer room.answers u).isSome = false := by simp [hnew]
    have hq2 : room.questions[room.currentQuestionIndex]? = some q := by simpa using hq
    have hicf : isCorrectAnswer room a = false := by
      simp [isCorrectAnswer, currentCorrect, hq2, hne]
    unfold handleAnswerSelect clientAnswerPayload applyAnswerPayload
    simp [hns, hicf]

/-- Witness for C10: an incorrect first answer y by player B in the playing
room `raceStart`. -/
theorem submitAnswer_frame_witness :
    raceStart.gameState = GameState.playing
    ∧ ((handleAnswerSelect raceStart "B" "y").gameState = raceStart.gameState
      ∧ (handleAnswerSelect raceStart "B" "y").hostId = raceStart.hostId
      ∧ (handleAnswerSelect raceStart "B" "y").currentQuestionIndex
          = raceStart.currentQuestionIndex
      ∧ (handleAnswerSelect raceStart "B" "y").questions = raceStart.questions
      ∧ (handleAnswerSelect raceStart "B" "y").players.length = raceStart.players.length
      ∧ (handleAnswerSelect raceStart "B" "y").players.filter (fun p => decide (p.uid ≠ "B"))
          = raceStart.players.filter (fun p => decide (p.uid ≠ "B"))
      ∧ (∀ q, raceStart.questions.get? raceStart.currentQuestionIndex = some q →
          "y" ≠ q.correctAnswer → lookupAnswer raceStart.answers "B" = none →
          (handleAnswerSelect raceStart "B" "y").players = raceStart.players
          ∧ (handleAnswerSelect raceStart "B" "y").answers
              = setAnswer raceStart.answers "B" "y")) :=
  ⟨by decide, submitAnswer_frame raceStart "B" "y" (by decide)⟩

end Trivia
